import Mathlib

/-!
Verification of the brewhouse command-orchestration layer.

Shallow embedding of `src/brew.rs` and the relevant handlers of
`src/main.rs`.  Text is modelled as `List Char`; an external process
result is a `ProcOut` (exit-status flag, captured standard output,
captured standard error), with `Except.error` standing for a spawn
failure.  JSON documents are modelled by the `Json` inductive (numbers
as integers); the serde-derived decoders are embedded field by field.
A struct decodes from a JSON object (unknown keys ignored, a missing
`Option` field or a `null` value gives `none`, a missing required field
is an error) or, as serde also accepts, from a JSON array giving the
fields positionally in declaration order (every field must then be
present; `null` gives `none` for an `Option` field; a wrong length is
an error).  For duplicate object keys the first binding wins, where the
real decoder reports a duplicate-field error — a divergence under which
the real decoder fails on strictly more inputs.
-/

/-! ## Text utilities (Rust `str` operations used by `brew.rs`) -/

/-- Whitespace test used by Rust `str::trim` (restricted to the ASCII
whitespace that actually occurs in tool output). -/
def isWsChar (c : Char) : Bool :=
  c = ' ' || c = '\t' || c = '\n' || c = '\r'

/-- Split a character list at every newline; always returns at least one
(possibly empty) segment, like `str::split('\n')`. -/
def splitOnNl : List Char → List (List Char)
  | [] => [[]]
  | c :: rest =>
    let r := splitOnNl rest
    if c = '\n' then [] :: r
    else
      match r with
      | h :: t => (c :: h) :: t
      | [] => [[c]]

/-- Drop one trailing carriage return, as Rust `str::lines` does per line. -/
def stripCr (l : List Char) : List Char :=
  match l.reverse with
  | c :: t => if c = '\r' then t.reverse else l
  | [] => l

/-- Rust `str::lines`: split on newlines, each line without its optional
trailing carriage return.  (Rust also drops one final empty segment;
every use in `brew.rs` filters empty lines afterwards, so the final
empty segment never affects a result.) -/
def rustLines (s : List Char) : List (List Char) :=
  (splitOnNl s).map stripCr

/-- Rust `str::trim`: drop whitespace at both ends. -/
def trimChars (l : List Char) : List Char :=
  ((l.reverse.dropWhile isWsChar).reverse).dropWhile isWsChar

/-- Rust `str::starts_with` on character lists. -/
def starts_with (l p : List Char) : Bool :=
  decide (l.take p.length = p)

/-! ## JSON documents and serde-style decoding -/

/-- A JSON document (numbers modelled as integers). -/
inductive Json where
  | null
  | bool (b : Bool)
  | num (n : Int)
  | str (s : List Char)
  | arr (elems : List Json)
  | obj (fields : List ((List Char) × Json))

/-- Look a key up in a JSON object. -/
def getField (fs : List ((List Char) × Json)) (k : List Char) : Option Json :=
  (fs.find? (fun p => decide (p.1 = k))).map (fun p => p.2)

/-- Decode a JSON string. -/
def jStr : Json → Except (List Char) (List Char)
  | .str s => .ok s
  | _ => .error ("invalid type: expected string".toList)

/-- Decode a JSON boolean. -/
def jBool : Json → Except (List Char) Bool
  | .bool b => .ok b
  | _ => .error ("invalid type: expected boolean".toList)

/-- Decode a JSON number into an `i32` (with the Rust range check). -/
def jI32 : Json → Except (List Char) Int
  | .num n =>
    if -(2 ^ 31) ≤ n ∧ n < 2 ^ 31 then .ok n
    else .error ("invalid value: integer out of range".toList)
  | _ => .error ("invalid type: expected integer".toList)

/-- Decode a JSON number into an `i64` (with the Rust range check). -/
def jI64 : Json → Except (List Char) Int
  | .num n =>
    if -(2 ^ 63) ≤ n ∧ n < 2 ^ 63 then .ok n
    else .error ("invalid value: integer out of range".toList)
  | _ => .error ("invalid type: expected integer".toList)

/-- Decode a `serde_json::Value` field: any document is accepted. -/
def jAny : Json → Except (List Char) Json := fun j => .ok j

/-- Decode a list of documents left to right; the first error wins. -/
def decode_each {α : Type} (f : Json → Except (List Char) α) :
    List Json → Except (List Char) (List α)
  | [] => .ok []
  | x :: xs => do
    let a ← f x
    let as ← decode_each f xs
    .ok (a :: as)

/-- Decode a JSON array element-wise (`Vec<T>`). -/
def jList {α : Type} (f : Json → Except (List Char) α) :
    Json → Except (List Char) (List α)
  | .arr xs => decode_each f xs
  | _ => .error ("invalid type: expected array".toList)

/-- A required struct field: missing is a decode error. -/
def reqField {α : Type} (fs : List ((List Char) × Json)) (k : List Char)
    (f : Json → Except (List Char) α) : Except (List Char) α :=
  match getField fs k with
  | some j => f j
  | none => .error ("missing field ".toList ++ k)

/-- An `Option` struct field: missing or `null` is `none`, a present
value is decoded (its error propagates). -/
def optField {α : Type} (fs : List ((List Char) × Json)) (k : List Char)
    (f : Json → Except (List Char) α) : Except (List Char) (Option α) :=
  match getField fs k with
  | none => .ok none
  | some .null => .ok none
  | some j => (f j).map some

/-- An `Option` value that is present (used by the positional struct
encoding): `null` is `none`, anything else is decoded. -/
def optVal {α : Type} (f : Json → Except (List Char) α) :
    Json → Except (List Char) (Option α)
  | .null => .ok none
  | j => (f j).map some

/-! ## Data model (`brew.rs`) -/

/-- `Package` from `brew.rs`. -/
structure Package where
  name : List Char
  version : Option (List Char)
  desc : Option (List Char)
  homepage : Option (List Char)
  installed : Bool
deriving DecidableEq

/-- `BrewVersions` from `brew.rs`. -/
structure BrewVersions where
  stable : List Char
  head : Option (List Char)
  bottle : Option Bool
deriving DecidableEq

/-- `BrewUrl` from `brew.rs`. -/
structure BrewUrl where
  url : List Char
  tag : Option (List Char)
  revision : Option (List Char)
deriving DecidableEq

/-- `BrewUrls` from `brew.rs`. -/
structure BrewUrls where
  stable : Option BrewUrl
  head : Option BrewUrl
deriving DecidableEq

/-- `BrewInstalled` from `brew.rs`. -/
structure BrewInstalled where
  version : List Char
  used_options : List (List Char)
  built_as_bottle : Bool
  poured_from_bottle : Bool
  time : Option Int
  runtime_dependencies : Option (List Json)
  installed_as_dependency : Bool
  installed_on_request : Bool

/-- `BrewInfoFormula` from `brew.rs` (all 39 fields). -/
structure BrewInfoFormula where
  name : List Char
  full_name : Option (List Char)
  tap : Option (List Char)
  oldname : Option (List Char)
  aliases : Option (List (List Char))
  versioned_formulae : Option (List (List Char))
  desc : Option (List Char)
  license : Option (List Char)
  homepage : Option (List Char)
  versions : BrewVersions
  urls : Option BrewUrls
  revision : Option Int
  version_scheme : Option Int
  bottle : Option Json
  keg_only : Option Bool
  keg_only_reason : Option Json
  options : Option (List Json)
  build_dependencies : Option (List (List Char))
  dependencies : Option (List (List Char))
  test_dependencies : Option (List (List Char))
  recommended_dependencies : Option (List (List Char))
  optional_dependencies : Option (List (List Char))
  uses_from_macos : Option (List Json)
  requirements : Option (List Json)
  conflicts_with : Option (List (List Char))
  conflicts_with_reasons : Option (List (List Char))
  link_overwrite : Option (List (List Char))
  caveats : Option (List Char)
  installed : Option (List BrewInstalled)
  linked_keg : Option (List Char)
  pinned : Option Bool
  outdated : Option Bool
  deprecated : Option Bool
  deprecation_date : Option (List Char)
  deprecation_reason : Option (List Char)
  disabled : Option Bool
  disable_date : Option (List Char)
  disable_reason : Option (List Char)
  analytics : Option Json

/-- `BrewError` from `brew.rs`. -/
inductive BrewError where
  | commandFailed (msg : List Char)
  | parseError (msg : List Char)
  | notInstalled

/-- The `Display` rendering of `BrewError` from `brew.rs`. -/
def display_error : BrewError → List Char
  | .commandFailed m => "Brew command failed: ".toList ++ m
  | .parseError m => "Failed to parse brew output: ".toList ++ m
  | .notInstalled => "Homebrew is not installed or not in PATH".toList

/-- `BrewStats` from `brew.rs`. -/
structure BrewStats where
  installed : Nat
  casks : Nat
  outdated : Nat
  formulae : Nat
  leaves : Nat
  taps : Nat
deriving DecidableEq

/-- A captured external process result: exit-status success flag and the
two captured streams.  `σ` is the type standard output is viewed at:
raw text (`List Char`) for the line-oriented endpoints, a JSON-reading
result (`Except (List Char) Json`) for the structured endpoints. -/
structure ProcOut (σ : Type) where
  success : Bool
  stdout : σ
  stderr : List Char
deriving DecidableEq

/-- Boolean success test for `Except`. -/
def except_ok {ε α : Type} : Except ε α → Bool
  | .ok _ => true
  | .error _ => false

/-! ## Derived decoders (one per `#[derive(Deserialize)]` struct) -/

/-- Decoder derived for `BrewVersions` (object keys or positional
array, as serde accepts both). -/
def BrewVersions.decode (j : Json) : Except (List Char) BrewVersions :=
  match j with
  | .obj fs => do
    let stable ← reqField fs ("stable".toList) jStr
    let head ← optField fs ("head".toList) jStr
    let bottle ← optField fs ("bottle".toList) jBool
    .ok ⟨stable, head, bottle⟩
  | .arr [stable_v, head_v, bottle_v] => do
    let stable ← jStr stable_v
    let head ← optVal jStr head_v
    let bottle ← optVal jBool bottle_v
    .ok ⟨stable, head, bottle⟩
  | .arr _ => .error ("invalid length for struct BrewVersions".toList)
  | _ => .error ("invalid type: expected object".toList)

/-- Decoder derived for `BrewUrl` (object keys or positional array). -/
def BrewUrl.decode (j : Json) : Except (List Char) BrewUrl :=
  match j with
  | .obj fs => do
    let url ← reqField fs ("url".toList) jStr
    let tag ← optField fs ("tag".toList) jStr
    let revision ← optField fs ("revision".toList) jStr
    .ok ⟨url, tag, revision⟩
  | .arr [url_v, tag_v, revision_v] => do
    let url ← jStr url_v
    let tag ← optVal jStr tag_v
    let revision ← optVal jStr revision_v
    .ok ⟨url, tag, revision⟩
  | .arr _ => .error ("invalid length for struct BrewUrl".toList)
  | _ => .error ("invalid type: expected object".toList)

/-- Decoder derived for `BrewUrls` (object keys or positional array). -/
def BrewUrls.decode (j : Json) : Except (List Char) BrewUrls :=
  match j with
  | .obj fs => do
    let stable ← optField fs ("stable".toList) BrewUrl.decode
    let head ← optField fs ("head".toList) BrewUrl.decode
    .ok ⟨stable, head⟩
  | .arr [stable_v, head_v] => do
    let stable ← optVal BrewUrl.decode stable_v
    let head ← optVal BrewUrl.decode head_v
    .ok ⟨stable, head⟩
  | .arr _ => .error ("invalid length for struct BrewUrls".toList)
  | _ => .error ("invalid type: expected object".toList)

/-- Decoder derived for `BrewInstalled`. -/
def BrewInstalled.decode (j : Json) : Except (List Char) BrewInstalled :=
  match j with
  | .obj fs => do
    let version ← reqField fs ("version".toList) jStr
    let used_options ← reqField fs ("used_options".toList) (jList jStr)
    let built_as_bottle ← reqField fs ("built_as_bottle".toList) jBool
    let poured_from_bottle ← reqField fs ("poured_from_bottle".toList) jBool
    let time ← optField fs ("time".toList) jI64
    let runtime_dependencies ← optField fs ("runtime_dependencies".toList) (jList jAny)
    let installed_as_dependency ← reqField fs ("installed_as_dependency".toList) jBool
    let installed_on_request ← reqField fs ("installed_on_request".toList) jBool
    .ok ⟨version, used_options, built_as_bottle, poured_from_bottle, time,
         runtime_dependencies, installed_as_dependency, installed_on_request⟩
  | .arr [version_v, used_options_v, built_as_bottle_v, poured_from_bottle_v,
      time_v, runtime_dependencies_v, installed_as_dependency_v,
      installed_on_request_v] => do
    let version ← jStr version_v
    let used_options ← jList jStr used_options_v
    let built_as_bottle ← jBool built_as_bottle_v
    let poured_from_bottle ← jBool poured_from_bottle_v
    let time ← optVal jI64 time_v
    let runtime_dependencies ← optVal (jList jAny) runtime_dependencies_v
    let installed_as_dependency ← jBool installed_as_dependency_v
    let installed_on_request ← jBool installed_on_request_v
    .ok ⟨version, used_options, built_as_bottle, poured_from_bottle, time,
         runtime_dependencies, installed_as_dependency, installed_on_request⟩
  | .arr _ => .error ("invalid length for struct BrewInstalled".toList)
  | _ => .error ("invalid type: expected object".toList)

/-- Decoder derived for `BrewInfoFormula` (field for field as declared). -/
def BrewInfoFormula.decode (j : Json) : Except (List Char) BrewInfoFormula :=
  match j with
  | .obj fs => do
    let name ← reqField fs ("name".toList) jStr
    let full_name ← optField fs ("full_name".toList) jStr
    let tap ← optField fs ("tap".toList) jStr
    let oldname ← optField fs ("oldname".toList) jStr
    let aliases ← optField fs ("aliases".toList) (jList jStr)
    let versioned_formulae ← optField fs ("versioned_formulae".toList) (jList jStr)
    let desc ← optField fs ("desc".toList) jStr
    let license ← optField fs ("license".toList) jStr
    let homepage ← optField fs ("homepage".toList) jStr
    let versions ← reqField fs ("versions".toList) BrewVersions.decode
    let urls ← optField fs ("urls".toList) BrewUrls.decode
    let revision ← optField fs ("revision".toList) jI32
    let version_scheme ← optField fs ("version_scheme".toList) jI32
    let bottle ← optField fs ("bottle".toList) jAny
    let keg_only ← optField fs ("keg_only".toList) jBool
    let keg_only_reason ← optField fs ("keg_only_reason".toList) jAny
    let options ← optField fs ("options".toList) (jList jAny)
    let build_dependencies ← optField fs ("build_dependencies".toList) (jList jStr)
    let dependencies ← optField fs ("dependencies".toList) (jList jStr)
    let test_dependencies ← optField fs ("test_dependencies".toList) (jList jStr)
    let recommended_dependencies ← optField fs ("recommended_dependencies".toList) (jList jStr)
    let optional_dependencies ← optField fs ("optional_dependencies".toList) (jList jStr)
    let uses_from_macos ← optField fs ("uses_from_macos".toList) (jList jAny)
    let requirements ← optField fs ("requirements".toList) (jList jAny)
    let conflicts_with ← optField fs ("conflicts_with".toList) (jList jStr)
    let conflicts_with_reasons ← optField fs ("conflicts_with_reasons".toList) (jList jStr)
    let link_overwrite ← optField fs ("link_overwrite".toList) (jList jStr)
    let caveats ← optField fs ("caveats".toList) jStr
    let installed ← optField fs ("installed".toList) (jList BrewInstalled.decode)
    let linked_keg ← optField fs ("linked_keg".toList) jStr
    let pinned ← optField fs ("pinned".toList) jBool
    let outdated ← optField fs ("outdated".toList) jBool
    let deprecated ← optField fs ("deprecated".toList) jBool
    let deprecation_date ← optField fs ("deprecation_date".toList) jStr
    let deprecation_reason ← optField fs ("deprecation_reason".toList) jStr
    let disabled ← optField fs ("disabled".toList) jBool
    let disable_date ← optField fs ("disable_date".toList) jStr
    let disable_reason ← optField fs ("disable_reason".toList) jStr
    let analytics ← optField fs ("analytics".toList) jAny
    .ok ⟨name, full_name, tap, oldname, aliases, versioned_formulae, desc,
         license, homepage, versions, urls, revision, version_scheme, bottle,
         keg_only, keg_only_reason, options, build_dependencies, dependencies,
         test_dependencies, recommended_dependencies, optional_dependencies,
         uses_from_macos, requirements, conflicts_with, conflicts_with_reasons,
         link_overwrite, caveats, installed, linked_keg, pinned, outdated,
         deprecated, deprecation_date, deprecation_reason, disabled,
         disable_date, disable_reason, analytics⟩
  | .arr (name_v :: full_name_v :: tap_v :: oldname_v :: aliases_v ::
      versioned_formulae_v :: desc_v :: license_v :: homepage_v :: versions_v ::
      urls_v :: revision_v :: version_scheme_v :: bottle_v :: keg_only_v ::
      keg_only_reason_v :: options_v :: build_dependencies_v :: dependencies_v ::
      test_dependencies_v :: recommended_dependencies_v ::
      optional_dependencies_v :: uses_from_macos_v :: requirements_v ::
      conflicts_with_v :: conflicts_with_reasons_v :: link_overwrite_v ::
      caveats_v :: installed_v :: linked_keg_v :: pinned_v :: outdated_v ::
      deprecated_v :: deprecation_date_v :: deprecation_reason_v :: disabled_v ::
      disable_date_v :: disable_reason_v :: analytics_v :: []) => do
    let name ← jStr name_v
    let full_name ← optVal jStr full_name_v
    let tap ← optVal jStr tap_v
    let oldname ← optVal jStr oldname_v
    let aliases ← optVal (jList jStr) aliases_v
    let versioned_formulae ← optVal (jList jStr) versioned_formulae_v
    let desc ← optVal jStr desc_v
    let license ← optVal jStr license_v
    let homepage ← optVal jStr homepage_v
    let versions ← BrewVersions.decode versions_v
    let urls ← optVal BrewUrls.decode urls_v
    let revision ← optVal jI32 revision_v
    let version_scheme ← optVal jI32 version_scheme_v
    let bottle ← optVal jAny bottle_v
    let keg_only ← optVal jBool keg_only_v
    let keg_only_reason ← optVal jAny keg_only_reason_v
    let options ← optVal (jList jAny) options_v
    let build_dependencies ← optVal (jList jStr) build_dependencies_v
    let dependencies ← optVal (jList jStr) dependencies_v
    let test_dependencies ← optVal (jList jStr) test_dependencies_v
    let recommended_dependencies ← optVal (jList jStr) recommended_dependencies_v
    let optional_dependencies ← optVal (jList jStr) optional_dependencies_v
    let uses_from_macos ← optVal (jList jAny) uses_from_macos_v
    let requirements ← optVal (jList jAny) requirements_v
    let conflicts_with ← optVal (jList jStr) conflicts_with_v
    let conflicts_with_reasons ← optVal (jList jStr) conflicts_with_reasons_v
    let link_overwrite ← optVal (jList jStr) link_overwrite_v
    let caveats ← optVal jStr caveats_v
    let installed ← optVal (jList BrewInstalled.decode) installed_v
    let linked_keg ← optVal jStr linked_keg_v
    let pinned ← optVal jBool pinned_v
    let outdated ← optVal jBool outdated_v
    let deprecated ← optVal jBool deprecated_v
    let deprecation_date ← optVal jStr deprecation_date_v
    let deprecation_reason ← optVal jStr deprecation_reason_v
    let disabled ← optVal jBool disabled_v
    let disable_date ← optVal jStr disable_date_v
    let disable_reason ← optVal jStr disable_reason_v
    let analytics ← optVal jAny analytics_v
    .ok ⟨name, full_name, tap, oldname, aliases, versioned_formulae, desc,
         license, homepage, versions, urls, revision, version_scheme, bottle,
         keg_only, keg_only_reason, options, build_dependencies, dependencies,
         test_dependencies, recommended_dependencies, optional_dependencies,
         uses_from_macos, requirements, conflicts_with, conflicts_with_reasons,
         link_overwrite, caveats, installed, linked_keg, pinned, outdated,
         deprecated, deprecation_date, deprecation_reason, disabled,
         disable_date, disable_reason, analytics⟩
  | .arr _ => .error ("invalid length for struct BrewInfoFormula".toList)
  | _ => .error ("invalid type: expected object".toList)

/-- The inline `BrewInfoResponse` struct of `get_installed_packages` and
`get_package_info`. -/
structure BrewInfoResponse where
  formulae : List BrewInfoFormula

/-- Decoder derived for `BrewInfoResponse`: an object holding the
`formulae` array, or serde's positional encoding — an array whose
single element is the `formulae` array (a wrong element count is an
error). -/
def BrewInfoResponse.decode (j : Json) : Except (List Char) BrewInfoResponse :=
  match j with
  | .obj fs => do
    let formulae ← reqField fs ("formulae".toList) (jList BrewInfoFormula.decode)
    .ok ⟨formulae⟩
  | .arr [formulae_v] => do
    let formulae ← jList BrewInfoFormula.decode formulae_v
    .ok ⟨formulae⟩
  | .arr _ => .error ("invalid length for struct BrewInfoResponse".toList)
  | _ => .error ("invalid type: expected object".toList)

/-! ## Endpoint functions (`brew.rs`), parameterized by the process result -/

/-- Standard output of the structured endpoints, as read by
`serde_json::from_str`: `Except.error` is syntactically invalid text. -/
abbrev JsonOut := ProcOut (Except (List Char) Json)

/-- `get_installed_packages`: bulk structured listing restricted to
installed items (`brew info --json=v2 --installed`). -/
def get_installed_packages (res : Except (List Char) JsonOut) :
    Except BrewError (List Package) :=
  match res with
  | .error e => .error (.commandFailed e)
  | .ok out =>
    if out.success then
      match out.stdout with
      | .error e => .error (.parseError e)
      | .ok j =>
        match BrewInfoResponse.decode j with
        | .error e => .error (.parseError e)
        | .ok r =>
          .ok (r.formulae.map (fun info =>
            { name := info.name
              version := some info.versions.stable
              desc := info.desc
              homepage := info.homepage
              installed := true }))
    else .error (.commandFailed out.stderr)

/-- `get_package_info`: structured detail query for one named item. -/
def get_package_info (res : Except (List Char) JsonOut) :
    Except BrewError BrewInfoFormula :=
  match res with
  | .error e => .error (.commandFailed e)
  | .ok out =>
    if out.success then
      match out.stdout with
      | .error e => .error (.parseError e)
      | .ok j =>
        match BrewInfoResponse.decode j with
        | .error e => .error (.parseError e)
        | .ok r =>
          match r.formulae with
          | [] => .error (.parseError ("No formula found in response".toList))
          | f :: _ => .ok f
    else .error (.commandFailed out.stderr)

/-- The argument list `search_packages` builds: the query token is
appended only when the query is non-empty. -/
def search_args (query : List Char) : List (List Char) :=
  if query.isEmpty then ["search".toList, "--formula".toList]
  else ["search".toList, "--formula".toList, query]

/-- The line filter of `search_packages`: trim, drop empty lines, drop
section-header marker lines. -/
def search_line_filter (s : List Char) : List (List Char) :=
  ((rustLines s).map trimChars).filter
    (fun l => !l.isEmpty && !starts_with l ("==>".toList))

/-- `search_packages` (the result handling; the same decode is used for
every query, including the empty one). -/
def search_packages (res : Except (List Char) (ProcOut (List Char))) :
    Except BrewError (List (List Char)) :=
  match res with
  | .error e => .error (.commandFailed e)
  | .ok out =>
    if out.success then .ok (search_line_filter out.stdout)
    else .error (.commandFailed out.stderr)

/-- The line filter of `get_outdated_packages`: trim and drop empty
lines only. -/
def outdated_line_filter (s : List Char) : List (List Char) :=
  ((rustLines s).map trimChars).filter (fun l => !l.isEmpty)

/-- `get_outdated_packages` (`brew outdated --formula`). -/
def get_outdated_packages (res : Except (List Char) (ProcOut (List Char))) :
    Except BrewError (List (List Char)) :=
  match res with
  | .error e => .error (.commandFailed e)
  | .ok out =>
    if out.success then .ok (outdated_line_filter out.stdout)
    else .error (.commandFailed out.stderr)

/-- `install_package`. -/
def install_package (res : Except (List Char) (ProcOut (List Char))) :
    Except BrewError (List Char) :=
  match res with
  | .error e => .error (.commandFailed e)
  | .ok out =>
    if out.success then .ok out.stdout
    else .error (.commandFailed out.stderr)

/-- `uninstall_package`. -/
def uninstall_package (res : Except (List Char) (ProcOut (List Char))) :
    Except BrewError (List Char) :=
  match res with
  | .error e => .error (.commandFailed e)
  | .ok out =>
    if out.success then .ok out.stdout
    else .error (.commandFailed out.stderr)

/-- `upgrade_packages` (`brew upgrade`, optionally for one name; the
result handling does not depend on the name). -/
def upgrade_packages (res : Except (List Char) (ProcOut (List Char))) :
    Except BrewError (List Char) :=
  match res with
  | .error e => .error (.commandFailed e)
  | .ok out =>
    if out.success then .ok out.stdout
    else .error (.commandFailed out.stderr)

/-- `update_brew` (`brew update`): on success both streams are returned;
on failure the detail is standard output and standard error joined by a
newline. -/
def update_brew (res : Except (List Char) (ProcOut (List Char))) :
    Except BrewError ((List Char) × (List Char)) :=
  match res with
  | .error e => .error (.commandFailed e)
  | .ok out =>
    if out.success then .ok (out.stdout, out.stderr)
    else .error (.commandFailed (out.stdout ++ "\n".toList ++ out.stderr))

/-- One field of `get_brew_stats`: the count of non-empty standard
output lines of the query, or zero when the spawn failed
(`.map(count non-empty lines).unwrap_or(0)` — the exit status is not
consulted). -/
def stat_field (res : Except (List Char) (ProcOut (List Char))) : Nat :=
  match res with
  | .error _ => 0
  | .ok o => ((rustLines o.stdout).filter (fun l => !l.isEmpty)).length

/-- `get_brew_stats`: six independent count queries, always `Ok`. -/
def get_brew_stats
    (r₁ r₂ r₃ r₄ r₅ r₆ : Except (List Char) (ProcOut (List Char))) :
    Except BrewError BrewStats :=
  .ok ⟨stat_field r₁, stat_field r₂, stat_field r₃,
       stat_field r₄, stat_field r₅, stat_field r₆⟩

/-! ## Installed view (`create_installed_view` in `main.rs`)

The view keeps the `ListBox` rows (modelled by the displayed package
name) next to the `packages_store` vector; `connect_row_selected`
resolves a row index against `packages_store`. -/

/-- The widget/store state of the installed view. -/
structure InstalledView where
  rows : List (List Char)
  packagesStore : List Package
deriving DecidableEq

/-- The load handler (`main.rs:483-493`): one row per package, then the
store is replaced by the loaded vector. -/
def load_installed (ps : List Package) : InstalledView :=
  ⟨ps.map (fun p => p.name), ps⟩

/-- `connect_row_selected` (`main.rs:401-418`): the selected row index
is looked up in `packages_store` (`packages.get(idx)`). -/
def row_selected (v : InstalledView) (idx : Nat) : Option Package :=
  v.packagesStore[idx]?

/-- The uninstall success handler (`main.rs:452-457`): the selected row
is removed from the `ListBox`; `packages_store` is left as it was. -/
def on_uninstall_ok (v : InstalledView) (idx : Nat) : InstalledView :=
  ⟨v.rows.eraseIdx idx, v.packagesStore⟩

/-! ## Batch upgrade (`upgrade_selected` handler in `main.rs:907-926`)

The handler walks the selected identities in order; for each it first
sets the status label to `Upgrading pkg (i+1/total)...`, then runs
`brew::upgrade_packages(Some(pkg))` to completion, then records the
outcome and moves to the next.  `env` maps each identity to the process
result of its upgrade invocation. -/

/-- An observable step of the batch loop: the progress label update, or
one external upgrade invocation running to completion. -/
inductive Event where
  | progress (pkg : List Char) (position total : Nat)
  | invoke (pkg : List Char)
deriving DecidableEq

/-- The per-batch outcome record built by the loop. -/
structure BatchReport where
  succeeded : List (List Char)
  failed : List ((List Char) × (List Char))
deriving DecidableEq

/-- The identity invoked by an `invoke` event. -/
def invoked_package : Event → Option (List Char)
  | .invoke p => some p
  | _ => none

/-- The body of the `for (i, pkg) in selected.iter().enumerate()` loop:
emit the progress label, invoke the upgrade, record the outcome
(`e.to_string()` as the failure detail), continue with the rest. -/
def upgrade_loop (env : List Char → Except (List Char) (ProcOut (List Char)))
    (total : Nat) : Nat → List (List Char) → List Event × BatchReport
  | _, [] => ([], ⟨[], []⟩)
  | i, pkg :: rest =>
    let tail := upgrade_loop env total (i + 1) rest
    match upgrade_packages (env pkg) with
    | .ok _ =>
        (.progress pkg (i + 1) total :: .invoke pkg :: tail.1,
         ⟨pkg :: tail.2.succeeded, tail.2.failed⟩)
    | .error e =>
        (.progress pkg (i + 1) total :: .invoke pkg :: tail.1,
         ⟨tail.2.succeeded, (pkg, display_error e) :: tail.2.failed⟩)

/-- The whole batch: strict left-to-right traversal of the selected
identities, starting at position 0, with `total = selected.len()`. -/
def upgrade_selected (env : List Char → Except (List Char) (ProcOut (List Char)))
    (selected : List (List Char)) : List Event × BatchReport :=
  upgrade_loop env selected.length 0 selected

/-! ## Definitions written from the spec's words, for comparison -/

/-- The spec's `parse_line_list`: split on newlines, trim each line,
drop empty lines, drop lines with the section-header marker prefix. -/
def spec_parse_line_list (s : List Char) : List (List Char) :=
  ((splitOnNl s).map trimChars).filter
    (fun l => !l.isEmpty && !starts_with l ("==>".toList))

/-- The spec's trim-and-drop-empty line list (no marker filter). -/
def spec_trim_nonempty_lines (s : List Char) : List (List Char) :=
  ((splitOnNl s).map trimChars).filter (fun l => !l.isEmpty)

/-- The claim's expected top-level container shape: an object holding
the `formulae` array, every element a well-formed formula record. -/
def expected_top_shape (j : Json) : Bool :=
  match j with
  | .obj fs =>
    match getField fs ("formulae".toList) with
    | some (.arr l) => l.all (fun x => except_ok (BrewInfoFormula.decode x))
    | _ => false
  | _ => false

/-- The shapes the decoder actually accepts for the container: the
claim's object shape, or serde's positional encoding — an array whose
single element is the `formulae` array of well-formed records. -/
def accepted_top_shape (j : Json) : Bool :=
  match j with
  | .obj fs =>
    match getField fs ("formulae".toList) with
    | some (.arr l) => l.all (fun x => except_ok (BrewInfoFormula.decode x))
    | _ => false
  | .arr [.arr l] => l.all (fun x => except_ok (BrewInfoFormula.decode x))
  | _ => false

/-- A formula document carrying only the required fields: `name` and
`versions.stable` (every optional field missing). -/
def minimal_formula_json (p : (List Char) × (List Char)) : Json :=
  .obj [("name".toList, .str p.1),
        ("versions".toList, .obj [("stable".toList, .str p.2)])]

/-- The formula record with the given name and stable version and every
optional field absent. -/
def minimal_formula (name stable : List Char) : BrewInfoFormula :=
  ⟨name, none, none, none, none, none, none, none, none,
   ⟨stable, none, none⟩, none, none, none, none, none, none, none, none,
   none, none, none, none, none, none, none, none, none, none, none, none,
   none, none, none, none, none, none, none, none, none⟩

/-! ## Concrete inputs used by individual claims -/

/-- A concrete installed package `a`. -/
def pkg_a : Package := ⟨"a".toList, some "1.0".toList, none, none, true⟩

/-- A concrete installed package `b`. -/
def pkg_b : Package := ⟨"b".toList, some "2.0".toList, none, none, true⟩

/-- The installed view loaded with `[pkg_a, pkg_b]` after `pkg_a`'s
uninstall succeeded and its row (index 0) was removed. -/
def view_after_removal : InstalledView :=
  on_uninstall_ok (load_installed [pkg_a, pkg_b]) 0

/-- An environment in which every upgrade invocation exits successfully. -/
def env_all_ok : List Char → Except (List Char) (ProcOut (List Char)) :=
  fun _ => .ok ⟨true, [], []⟩

/-- An environment in which exactly the upgrade of `b` exits non-zero
with `boom` on standard error. -/
def env_b_fails : List Char → Except (List Char) (ProcOut (List Char)) :=
  fun p =>
    if p = "b".toList then .ok ⟨false, [], "boom".toList⟩
    else .ok ⟨true, "fine".toList, []⟩

/-- Does this event carry a progress notification for `pkg`? -/
def progress_for (pkg : List Char) : Event → Bool
  | .progress q _ _ => decide (q = pkg)
  | _ => false

/-! ## Helper lemmas -/

theorem trimChars_stripCr (l : List Char) : trimChars (stripCr l) = trimChars l := by
  unfold stripCr
  cases h : l.reverse with
  | nil => rfl
  | cons c t =>
    by_cases hc : c = '\r'
    · subst hc
      have hl : l = t.reverse ++ ['\r'] := by
        have := congrArg List.reverse h
        simpa using this
      subst hl
      simp [trimChars, List.dropWhile, isWsChar]
    · simp [hc]

theorem map_trim_rustLines (s : List Char) :
    (rustLines s).map trimChars = (splitOnNl s).map trimChars := by
  have : trimChars ∘ stripCr = trimChars := funext trimChars_stripCr
  simp [rustLines, List.map_map, this]

theorem upgrade_loop_succeeded (env : List Char → Except (List Char) (ProcOut (List Char)))
    (total i : Nat) (sel : List (List Char)) :
    (upgrade_loop env total i sel).2.succeeded
      = sel.filter (fun p => except_ok (upgrade_packages (env p))) := by
  induction sel generalizing i with
  | nil => rfl
  | cons p t ih =>
    cases h : upgrade_packages (env p) with
    | ok v => simp [upgrade_loop, h, ih, except_ok]
    | error e => simp [upgrade_loop, h, ih, except_ok]

theorem upgrade_loop_failed_fst (env : List Char → Except (List Char) (ProcOut (List Char)))
    (total i : Nat) (sel : List (List Char)) :
    (upgrade_loop env total i sel).2.failed.map Prod.fst
      = sel.filter (fun p => !except_ok (upgrade_packages (env p))) := by
  induction sel generalizing i with
  | nil => rfl
  | cons p t ih =>
    cases h : upgrade_packages (env p) with
    | ok v => simp [upgrade_loop, h, ih, except_ok]
    | error e => simp [upgrade_loop, h, ih, except_ok]

theorem upgrade_loop_lengths (env : List Char → Except (List Char) (ProcOut (List Char)))
    (total i : Nat) (sel : List (List Char)) :
    (upgrade_loop env total i sel).2.succeeded.length
      + (upgrade_loop env total i sel).2.failed.length = sel.length := by
  induction sel generalizing i with
  | nil => rfl
  | cons p t ih =>
    have hrec := ih (i + 1)
    cases h : upgrade_packages (env p) with
    | ok v => simp [upgrade_loop, h]; omega
    | error e => simp [upgrade_loop, h]; omega

theorem upgrade_loop_trace (env : List Char → Except (List Char) (ProcOut (List Char)))
    (total i : Nat) (sel : List (List Char)) :
    (upgrade_loop env total i sel).1
      = (sel.enumFrom i).flatMap
          (fun q => [Event.progress q.2 (q.1 + 1) total, Event.invoke q.2]) := by
  induction sel generalizing i with
  | nil => rfl
  | cons p t ih =>
    cases h : upgrade_packages (env p) with
    | ok v => simp [upgrade_loop, h, ih, List.enumFrom]
    | error e => simp [upgrade_loop, h, ih, List.enumFrom]

theorem upgrade_loop_invocations (env : List Char → Except (List Char) (ProcOut (List Char)))
    (total i : Nat) (sel : List (List Char)) :
    (upgrade_loop env total i sel).1.filterMap invoked_package = sel := by
  induction sel generalizing i with
  | nil => rfl
  | cons p t ih =>
    cases h : upgrade_packages (env p) with
    | ok v => simp [upgrade_loop, h, ih, List.filterMap_cons, invoked_package]
    | error e => simp [upgrade_loop, h, ih, List.filterMap_cons, invoked_package]

theorem decode_minimal_formula (a b : List Char) :
    BrewInfoFormula.decode (minimal_formula_json (a, b)) = .ok (minimal_formula a b) := rfl

theorem decode_each_minimal (ps : List ((List Char) × (List Char))) :
    decode_each BrewInfoFormula.decode (ps.map minimal_formula_json)
      = .ok (ps.map (fun p => minimal_formula p.1 p.2)) := by
  induction ps with
  | nil => rfl
  | cons p t ih =>
    simp [decode_each, decode_minimal_formula p.1 p.2, ih, Bind.bind, Except.bind]

theorem decode_each_err {α : Type} (f : Json → Except (List Char) α) (l : List Json)
    (h : l.all (fun x => except_ok (f x)) = false) :
    ∃ d, decode_each f l = .error d := by
  induction l with
  | nil => simp at h
  | cons x t ih =>
    cases hx : f x with
    | error d => exact ⟨d, by simp only [decode_each, hx, Bind.bind, Except.bind]⟩
    | ok a =>
      simp only [List.all_cons, hx, except_ok, Bool.true_and] at h
      obtain ⟨d, hd⟩ := ih h
      exact ⟨d, by simp only [decode_each, hx, hd, Bind.bind, Except.bind]⟩

theorem response_decode_obj (fs : List ((List Char) × Json)) :
    BrewInfoResponse.decode (.obj fs)
      = match reqField fs ("formulae".toList) (jList BrewInfoFormula.decode) with
        | .ok v => .ok ⟨v⟩
        | .error e => .error e := by
  cases h : reqField fs ("formulae".toList) (jList BrewInfoFormula.decode) with
  | ok v => simp only [BrewInfoResponse.decode, h, Bind.bind, Except.bind]
  | error e => simp only [BrewInfoResponse.decode, h, Bind.bind, Except.bind]

theorem response_decode_arr (e : Json) :
    BrewInfoResponse.decode (.arr [e])
      = match jList BrewInfoFormula.decode e with
        | .ok v => .ok ⟨v⟩
        | .error d => .error d := by
  cases h : jList BrewInfoFormula.decode e with
  | ok v => simp only [BrewInfoResponse.decode, h, Bind.bind, Except.bind]
  | error d => simp only [BrewInfoResponse.decode, h, Bind.bind, Except.bind]

theorem response_decode_err (j : Json) (h : accepted_top_shape j = false) :
    ∃ d, BrewInfoResponse.decode j = .error d := by
  cases j with
  | obj fs =>
    rw [response_decode_obj]
    cases hf : getField fs ("formulae".toList) with
    | none =>
      exact ⟨("missing field ".toList ++ "formulae".toList), by simp only [reqField, hf]⟩
    | some jf =>
      cases jf with
      | arr l =>
        simp only [accepted_top_shape, hf] at h
        obtain ⟨d, hd⟩ := decode_each_err BrewInfoFormula.decode l h
        exact ⟨d, by simp only [reqField, hf, jList, hd]⟩
      | null => exact ⟨"invalid type: expected array".toList, by simp only [reqField, hf, jList]⟩
      | bool b => exact ⟨"invalid type: expected array".toList, by simp only [reqField, hf, jList]⟩
      | num n => exact ⟨"invalid type: expected array".toList, by simp only [reqField, hf, jList]⟩
      | str s => exact ⟨"invalid type: expected array".toList, by simp only [reqField, hf, jList]⟩
      | obj fs2 => exact ⟨"invalid type: expected array".toList, by simp only [reqField, hf, jList]⟩
  | arr elems =>
    cases elems with
    | nil => exact ⟨"invalid length for struct BrewInfoResponse".toList, rfl⟩
    | cons e tail =>
      cases tail with
      | nil =>
        cases e with
        | arr l =>
          rw [response_decode_arr]
          simp only [accepted_top_shape] at h
          obtain ⟨d, hd⟩ := decode_each_err BrewInfoFormula.decode l h
          exact ⟨d, by simp only [jList, hd]⟩
        | null => exact ⟨"invalid type: expected array".toList, rfl⟩
        | bool b => exact ⟨"invalid type: expected array".toList, rfl⟩
        | num n => exact ⟨"invalid type: expected array".toList, rfl⟩
        | str s => exact ⟨"invalid type: expected array".toList, rfl⟩
        | obj fs2 => exact ⟨"invalid type: expected array".toList, rfl⟩
      | cons y rest =>
        exact ⟨"invalid length for struct BrewInfoResponse".toList, rfl⟩
  | null => exact ⟨"invalid type: expected object".toList, rfl⟩
  | bool b => exact ⟨"invalid type: expected object".toList, rfl⟩
  | num n => exact ⟨"invalid type: expected object".toList, rfl⟩
  | str s => exact ⟨"invalid type: expected object".toList, rfl⟩

/-! ## Claims -/

/-- Claim C1 (the code contradicts it): after a successful uninstall the
row is removed from the list but `packages_store` is not rebuilt, so on
the catalog `[pkg_a, pkg_b]` with row 0 removed, index 0 (the row now
showing `pkg_b`) still resolves to the uninstalled `pkg_a`, index 1 —
at or beyond the new length 1 — still resolves to `pkg_b` instead of
nothing, while the shifted surviving sequence has `pkg_b` at position 0. -/
theorem installed_view_stale_index_after_uninstall :
    view_after_removal.rows.length = 1
    ∧ row_selected view_after_removal 0 = some pkg_a
    ∧ row_selected view_after_removal 1 = some pkg_b
    ∧ ([pkg_a, pkg_b].eraseIdx 0)[0]? = some pkg_b
    ∧ pkg_a ≠ pkg_b := by
  decide

/-- Claim C2: for every environment and every submitted ordered sequence
of identities (including the empty one), the batch upgrade records an
outcome for every identity — succeeded and failed counts sum to the
number submitted, each submitted identity lands in exactly one of
succeeded/failed, and every submitted identity is attempted (one
invocation each, failures never stop the remainder). -/
theorem upgrade_many_total_outcome_accounting
    (env : List Char → Except (List Char) (ProcOut (List Char)))
    (sel : List (List Char)) :
    (upgrade_selected env sel).2.succeeded.length
      + (upgrade_selected env sel).2.failed.length = sel.length
    ∧ (∀ p, p ∈ sel →
        ((p ∈ (upgrade_selected env sel).2.succeeded
          ∨ p ∈ (upgrade_selected env sel).2.failed.map Prod.fst)
        ∧ ¬(p ∈ (upgrade_selected env sel).2.succeeded
          ∧ p ∈ (upgrade_selected env sel).2.failed.map Prod.fst)))
    ∧ (upgrade_selected env sel).1.filterMap invoked_package = sel := by
  refine ⟨upgrade_loop_lengths env sel.length 0 sel, ?_,
    upgrade_loop_invocations env sel.length 0 sel⟩
  intro p hp
  rw [upgrade_selected, upgrade_loop_succeeded, upgrade_loop_failed_fst]
  constructor
  · cases hok : except_ok (upgrade_packages (env p)) with
    | true => exact Or.inl (List.mem_filter.mpr ⟨hp, hok⟩)
    | false => exact Or.inr (List.mem_filter.mpr ⟨hp, by simp [hok]⟩)
  · rintro ⟨h1, h2⟩
    have e1 := (List.mem_filter.mp h1).2
    have e2 := (List.mem_filter.mp h2).2
    simp [e1] at e2

/-- Witness for C2: in the batch `[a, b, c]` where exactly `b` fails,
`b` is a member of the submitted sequence and lands in exactly one of
succeeded/failed. -/
theorem upgrade_many_total_outcome_accounting_witness :
    ("b".toList ∈ ["a".toList, "b".toList, "c".toList])
    ∧ (("b".toList ∈ (upgrade_selected env_b_fails
          ["a".toList, "b".toList, "c".toList]).2.succeeded
        ∨ "b".toList ∈ (upgrade_selected env_b_fails
          ["a".toList, "b".toList, "c".toList]).2.failed.map Prod.fst)
      ∧ ¬("b".toList ∈ (upgrade_selected env_b_fails
          ["a".toList, "b".toList, "c".toList]).2.succeeded
        ∧ "b".toList ∈ (upgrade_selected env_b_fails
          ["a".toList, "b".toList, "c".toList]).2.failed.map Prod.fst)) :=
  ⟨by decide, (upgrade_many_total_outcome_accounting env_b_fails
      ["a".toList, "b".toList, "c".toList]).2.1 ("b".toList) (by decide)⟩

/-- Claim C3 counterexample: on exit failure with empty standard error
and non-empty standard output, the failure detail is the empty standard
error, not the standard output as the claim requires; and a bulk info
query can fail (with a parse error) even though the exit status
indicated success, against the claim's "succeeds iff". -/
theorem command_failure_detail_no_stdout_fallback :
    install_package (.ok ⟨false, "boom".toList, []⟩) = .error (.commandFailed [])
    ∧ "boom".toList ≠ ([] : List Char)
    ∧ get_installed_packages (.ok ⟨true, .ok (Json.num 5), []⟩)
        = .error (.parseError ("invalid type: expected object".toList)) :=
  ⟨rfl, by decide, rfl⟩

/-- Claim C3 (amended): install, uninstall, upgrade, search, outdated
and self-update succeed exactly when the exit status indicates success,
and on non-success carry the captured standard error (for self-update:
standard output and standard error joined by a newline) — never falling
back to standard output; the two structured info queries fail on
non-success exit with the captured standard error, and succeed only if
the exit status indicated success. -/
theorem command_result_status_and_detail (out : ProcOut (List Char)) (jout : JsonOut) :
    ((∃ v, install_package (.ok out) = .ok v) ↔ out.success = true)
    ∧ (out.success = false → install_package (.ok out) = .error (.commandFailed out.stderr))
    ∧ ((∃ v, uninstall_package (.ok out) = .ok v) ↔ out.success = true)
    ∧ (out.success = false → uninstall_package (.ok out) = .error (.commandFailed out.stderr))
    ∧ ((∃ v, upgrade_packages (.ok out) = .ok v) ↔ out.success = true)
    ∧ (out.success = false → upgrade_packages (.ok out) = .error (.commandFailed out.stderr))
    ∧ ((∃ v, search_packages (.ok out) = .ok v) ↔ out.success = true)
    ∧ (out.success = false → search_packages (.ok out) = .error (.commandFailed out.stderr))
    ∧ ((∃ v, get_outdated_packages (.ok out) = .ok v) ↔ out.success = true)
    ∧ (out.success = false → get_outdated_packages (.ok out) = .error (.commandFailed out.stderr))
    ∧ ((∃ v, update_brew (.ok out) = .ok v) ↔ out.success = true)
    ∧ (out.success = false → update_brew (.ok out)
        = .error (.commandFailed (out.stdout ++ "\n".toList ++ out.stderr)))
    ∧ ((∃ v, get_installed_packages (.ok jout) = .ok v) → jout.success = true)
    ∧ (jout.success = false → get_installed_packages (.ok jout) = .error (.commandFailed jout.stderr))
    ∧ ((∃ v, get_package_info (.ok jout) = .ok v) → jout.success = true)
    ∧ (jout.success = false → get_package_info (.ok jout) = .error (.commandFailed jout.stderr)) := by
  cases hs : out.success <;> cases hj : jout.success <;>
    simp [install_package, uninstall_package, upgrade_packages, search_packages,
      get_outdated_packages, update_brew, get_installed_packages, get_package_info, hs, hj]

/-- Witness for C3: concrete failing process results for a single
operation, the self-update and the detail query. -/
theorem command_result_status_and_detail_witness :
    install_package (.ok ⟨false, "o".toList, "e".toList⟩) = .error (.commandFailed "e".toList)
    ∧ update_brew (.ok ⟨false, "o".toList, "e".toList⟩)
        = .error (.commandFailed ("o".toList ++ "\n".toList ++ "e".toList))
    ∧ get_package_info (.ok ⟨false, .ok Json.null, "e".toList⟩)
        = .error (.commandFailed "e".toList) := by
  obtain ⟨h1, h2, h3, h4, h5, h6, h7, h8, h9, h10, h11, h12, h13, h14, h15, h16⟩ :=
    command_result_status_and_detail ⟨false, "o".toList, "e".toList⟩
      ⟨false, .ok Json.null, "e".toList⟩
  exact ⟨h2 rfl, h12 rfl, h16 rfl⟩

/-- Claim C4 counterexample: when all six queries spawn but exit
non-zero while printing one line to standard output, every count is 1,
not 0 — the exit status is never consulted, so "failure (non-zero exit)
is recorded as zero" and "all six counts are zero when every subcommand
fails" are both false. -/
theorem stats_counts_nonzero_exit_not_zeroed :
    get_brew_stats (.ok ⟨false, "pkg1\n".toList, "failed".toList⟩)
        (.ok ⟨false, "pkg1\n".toList, "failed".toList⟩)
        (.ok ⟨false, "pkg1\n".toList, "failed".toList⟩)
        (.ok ⟨false, "pkg1\n".toList, "failed".toList⟩)
        (.ok ⟨false, "pkg1\n".toList, "failed".toList⟩)
        (.ok ⟨false, "pkg1\n".toList, "failed".toList⟩)
      = .ok ⟨1, 1, 1, 1, 1, 1⟩
    ∧ (1 : Nat) ≠ 0 :=
  ⟨rfl, by decide⟩

/-- Claim C4 (amended): the stats snapshot always returns six counts
(it never fails as a whole); a field is zero when its query failed to
spawn, and otherwise equals the number of non-empty standard-output
lines of its subcommand regardless of the exit status. -/
theorem stats_snapshot_never_fails_and_degrades
    (r₁ r₂ r₃ r₄ r₅ r₆ : Except (List Char) (ProcOut (List Char))) :
    ∃ st, get_brew_stats r₁ r₂ r₃ r₄ r₅ r₆ = .ok st
      ∧ (∀ e, r₁ = .error e → st.installed = 0)
      ∧ (∀ o, r₁ = .ok o → st.installed = ((rustLines o.stdout).filter (fun l => !l.isEmpty)).length)
      ∧ (∀ e, r₂ = .error e → st.casks = 0)
      ∧ (∀ o, r₂ = .ok o → st.casks = ((rustLines o.stdout).filter (fun l => !l.isEmpty)).length)
      ∧ (∀ e, r₃ = .error e → st.outdated = 0)
      ∧ (∀ o, r₃ = .ok o → st.outdated = ((rustLines o.stdout).filter (fun l => !l.isEmpty)).length)
      ∧ (∀ e, r₄ = .error e → st.formulae = 0)
      ∧ (∀ o, r₄ = .ok o → st.formulae = ((rustLines o.stdout).filter (fun l => !l.isEmpty)).length)
      ∧ (∀ e, r₅ = .error e → st.leaves = 0)
      ∧ (∀ o, r₅ = .ok o → st.leaves = ((rustLines o.stdout).filter (fun l => !l.isEmpty)).length)
      ∧ (∀ e, r₆ = .error e → st.taps = 0)
      ∧ (∀ o, r₆ = .ok o → st.taps = ((rustLines o.stdout).filter (fun l => !l.isEmpty)).length) := by
  refine ⟨_, rfl, ?_, ?_, ?_, ?_, ?_, ?_, ?_, ?_, ?_, ?_, ?_, ?_⟩ <;>
    intro x hx <;> simp [stat_field, hx]

/-- Witness for C4: one spawn failure (count 0), one non-zero exit with
two output lines (count 2). -/
theorem stats_snapshot_never_fails_and_degrades_witness :
    ∃ st, get_brew_stats (.error "spawn failure".toList)
        (.ok ⟨false, "x\ny\n".toList, []⟩) (.ok ⟨true, [], []⟩) (.ok ⟨true, [], []⟩)
        (.ok ⟨true, [], []⟩) (.ok ⟨true, [], []⟩) = .ok st
      ∧ st.installed = 0 ∧ st.casks = 2 := by
  obtain ⟨st, hok, h1e, h1o, h2e, h2o, hrest⟩ :=
    stats_snapshot_never_fails_and_degrades (.error "spawn failure".toList)
      (.ok ⟨false, "x\ny\n".toList, []⟩) (.ok ⟨true, [], []⟩) (.ok ⟨true, [], []⟩)
      (.ok ⟨true, [], []⟩) (.ok ⟨true, [], []⟩)
  refine ⟨st, hok, h1e ("spawn failure".toList) rfl, ?_⟩
  rw [h2o ⟨false, "x\ny\n".toList, []⟩ rfl]
  decide

/-- Claim C5 counterexample: the outdated-package listing keeps a line
with the section-header marker prefix, while the spec's line parser
drops it. -/
theorem outdated_listing_keeps_marker_lines :
    outdated_line_filter ("==> Pinned\nfoo".toList)
      = ["==> Pinned".toList, "foo".toList]
    ∧ spec_parse_line_list ("==> Pinned\nfoo".toList) = ["foo".toList]
    ∧ outdated_line_filter ("==> Pinned\nfoo".toList)
        ≠ spec_parse_line_list ("==> Pinned\nfoo".toList) := by
  decide

/-- Claim C5 (amended): the search-result path is exactly the spec's
line parser (split on newlines, trim, drop empty, drop marker lines,
in order); the outdated-listing path splits, trims and drops empty
lines in order but keeps marker lines. -/
theorem line_list_parsers_against_spec (s : List Char) :
    search_line_filter s = spec_parse_line_list s
    ∧ outdated_line_filter s = spec_trim_nonempty_lines s := by
  constructor
  · simp [search_line_filter, spec_parse_line_list, map_trim_rustLines]
  · simp [outdated_line_filter, spec_trim_nonempty_lines, map_trim_rustLines]

/-- Claim C6: for every list of packages given as formula documents
carrying only the required `name` and `versions.stable` fields (every
optional field missing) inside the expected container, the bulk-listing
parse succeeds and each resulting record has absent description and
homepage; and the per-formula decode of such a minimal document yields
the record with every optional field absent — a missing optional
sub-field never fails the parse. -/
theorem bulk_listing_tolerates_missing_optional_fields
    (ps : List ((List Char) × (List Char))) (st : List Char) :
    get_installed_packages
        (.ok ⟨true, .ok (.obj [("formulae".toList, .arr (ps.map minimal_formula_json))]), st⟩)
      = .ok (ps.map (fun p => ⟨p.1, some p.2, none, none, true⟩))
    ∧ (∀ a b, BrewInfoFormula.decode (minimal_formula_json (a, b))
        = .ok (minimal_formula a b)) := by
  refine ⟨?_, fun a b => decode_minimal_formula a b⟩
  simp [get_installed_packages, BrewInfoResponse.decode, reqField, getField, jList,
    decode_each_minimal, List.map_map, Bind.bind, Except.bind, minimal_formula]

/-- Claim C7 counterexample: serde also accepts the positional (array)
encoding of the container, so the payload `[[]]` — which is not an
object holding the `formulae` array — decodes successfully: the
bulk-listing query returns the empty package list instead of the
`ParseError` the claim requires (the detail query maps the same payload
to its empty-response error, not to a decode failure). -/
theorem array_encoded_container_decodes_successfully :
    get_installed_packages (.ok ⟨true, .ok (Json.arr [Json.arr []]), []⟩)
      = .ok []
    ∧ expected_top_shape (Json.arr [Json.arr []]) = false
    ∧ get_package_info (.ok ⟨true, .ok (Json.arr [Json.arr []]), []⟩)
        = .error (.parseError ("No formula found in response".toList)) :=
  ⟨rfl, rfl, rfl⟩

/-- Claim C7 (amended): whenever the payload decodes to neither the
object container shape nor serde's positional (array) encoding of the
container — the document fails to decode as the `formulae` container in
either representation, or the output is not syntactically valid JSON —
both the bulk-listing query and the detail query return a `parseError`
carrying the decode diagnostic (in particular they never return a
constructed record). -/
theorem malformed_top_level_yields_parse_error (j : Json) (st e : List Char)
    (h : accepted_top_shape j = false) :
    (∃ d, get_installed_packages (.ok ⟨true, .ok j, st⟩) = .error (.parseError d))
    ∧ (∃ d, get_package_info (.ok ⟨true, .ok j, st⟩) = .error (.parseError d))
    ∧ get_installed_packages (.ok ⟨true, .error e, st⟩) = .error (.parseError e)
    ∧ get_package_info (.ok ⟨true, .error e, st⟩) = .error (.parseError e) := by
  obtain ⟨d, hd⟩ := response_decode_err j h
  exact ⟨⟨d, by simp only [get_installed_packages, if_true, hd]⟩,
         ⟨d, by simp only [get_package_info, if_true, hd]⟩, rfl, rfl⟩

/-- Witness for C7: a top-level number is accepted by neither encoding,
and the bulk-listing query on it returns a parse error. -/
theorem malformed_top_level_yields_parse_error_witness :
    accepted_top_shape (Json.num 5) = false
    ∧ (∃ d, get_installed_packages (.ok ⟨true, .ok (Json.num 5), []⟩)
        = .error (.parseError d)) :=
  ⟨rfl, (malformed_top_level_yields_parse_error (Json.num 5) [] [] rfl).1⟩

/-- Claim C8 counterexample: in the batch `[a, b]` with every invocation
succeeding, the trace is progress(a,1,2), invoke(a), progress(b,2,2),
invoke(b) — the only event between a's completion and b's start is the
notification carrying b (none carries a there), and no notification at
all follows the final item; so "after each item completes a progress
notification carrying that item's identity is emitted before the next
starts" fails. -/
theorem progress_emitted_before_not_after_item :
    (upgrade_selected env_all_ok ["a".toList, "b".toList]).1
      = [Event.progress "a".toList 1 2, Event.invoke "a".toList,
         Event.progress "b".toList 2 2, Event.invoke "b".toList]
    ∧ (((upgrade_selected env_all_ok ["a".toList, "b".toList]).1.drop 2).take 1).filter
        (progress_for "a".toList) = []
    ∧ (upgrade_selected env_all_ok ["a".toList, "b".toList]).1.drop 4 = [] := by
  decide

/-- Claim C8 (amended): for every environment and submitted sequence,
the batch trace is exactly, in submission order, a progress
notification carrying (identity, 1-based position, total) immediately
followed by that identity's single invocation, for each submitted
identity in turn — so items run strictly sequentially with one
invocation each and the notification precedes (rather than follows)
each item, and no per-item notification follows the final item. -/
theorem batch_progress_precedes_each_invocation
    (env : List Char → Except (List Char) (ProcOut (List Char)))
    (sel : List (List Char)) :
    (upgrade_selected env sel).1
      = (sel.enumFrom 0).flatMap
          (fun q => [Event.progress q.2 (q.1 + 1) sel.length, Event.invoke q.2])
    ∧ (upgrade_selected env sel).1.filterMap invoked_package = sel :=
  ⟨upgrade_loop_trace env sel.length 0 sel, upgrade_loop_invocations env sel.length 0 sel⟩

/-- Claim C9: the empty query builds the plain unfiltered listing
invocation (no search-term token); a non-empty query appends exactly
the query token; and any successful output whose trimmed lines are all
empty or marker lines yields the empty sequence, not an error. -/
theorem search_empty_query_and_no_matches (q : List Char) (out : ProcOut (List Char)) :
    search_args [] = ["search".toList, "--formula".toList]
    ∧ (q ≠ [] → search_args q = ["search".toList, "--formula".toList, q])
    ∧ (out.success = true →
        (∀ l ∈ (rustLines out.stdout).map trimChars,
          l.isEmpty = true ∨ starts_with l ("==>".toList) = true) →
        search_packages (.ok out) = .ok []) := by
  refine ⟨rfl, ?_, ?_⟩
  · intro hq
    cases q with
    | nil => exact absurd rfl hq
    | cons c t => rfl
  · intro hs hall
    simp only [search_packages, hs, if_true]
    congr 1
    rw [search_line_filter, List.filter_eq_nil_iff]
    intro l hl
    rcases hall l hl with h1 | h1
    · simp [h1]
    · have h2 : starts_with l ['=', '=', '>'] = true := h1
      simp [h2]

/-- Witness for C9: a successful search output consisting only of a
banner line and blank lines yields the empty result. -/
theorem search_empty_query_and_no_matches_witness :
    ((⟨true, "==> Formulae\n\n".toList, []⟩ : ProcOut (List Char)).success = true)
    ∧ search_packages (.ok ⟨true, "==> Formulae\n\n".toList, []⟩) = .ok [] :=
  ⟨rfl, (search_empty_query_and_no_matches []
      ⟨true, "==> Formulae\n\n".toList, []⟩).2.2 rfl (by decide)⟩

/-- Claim C10: when the payload is the expected container but its
`formulae` array is empty, the detail query returns the dedicated
parse error, not success. -/
theorem detail_query_empty_formulae_is_parse_error
    (fs : List ((List Char) × Json)) (st : List Char)
    (h : getField fs ("formulae".toList) = some (.arr [])) :
    get_package_info (.ok ⟨true, .ok (.obj fs), st⟩)
      = .error (.parseError ("No formula found in response".toList)) := by
  simp only [get_package_info, if_true, response_decode_obj, reqField, h, jList, decode_each]

/-- Witness for C10: the concrete container with an empty `formulae`
array. -/
theorem detail_query_empty_formulae_is_parse_error_witness :
    getField [("formulae".toList, Json.arr [])] ("formulae".toList) = some (Json.arr [])
    ∧ get_package_info (.ok ⟨true, .ok (.obj [("formulae".toList, Json.arr [])]), []⟩)
        = .error (.parseError ("No formula found in response".toList)) :=
  ⟨rfl, detail_query_empty_formulae_is_parse_error
      [("formulae".toList, Json.arr [])] [] rfl⟩
